import Mathlib

/-!
Verification development for the component-inheritance resolver of
`vue-inheritance-loader` (`src/index.js`).

The loader resolves Vue single-file components (SFCs) that declare template
inheritance: a component whose template carries an `extends` attribute is merged
with its (recursively resolved) base component, extension points of the base
being filled by the derived component's extension blocks, and a final pass turns
the remaining extension points into plain `template` containers.

Modelling choices of this shallow embedding:

* Sources are kept in structured form.  The SFC section splitter
  (`@vue/component-compiler-utils`' `parse`, called through `toDescriptor`) and
  the DOM codec (`htmlparser2`'s `parseDOM` / `DomUtils.getOuterHTML`) are
  external libraries used by the loader.  By their contract, serialising a
  section or a DOM tree and re-parsing it yields the same structure back, so the
  serialise/re-parse round trip performed between recursion levels is the
  identity at this level of abstraction; the inter-section whitespace introduced
  by the JS template literals is not modelled.  A "source" is therefore a
  `Descriptor` whose template content is already a DOM tree.
* SFC-level attribute values (`descriptor.template.attrs`) are either the JS
  boolean `true` (bare attribute, e.g. `<template extendable>`) or a string;
  `AttrVal` models this.  DOM-level attributes (htmlparser2's `attribs`) are
  plain strings.  JS truthiness of an attribute lookup is `truthyAttr`:
  a missing key and the empty string are falsy.
* `fs.readFile` is modelled as `String → Option Descriptor`; `none` models a
  read error.  In the JS, `reject(err)` at line 107 is not followed by `return`,
  but a promise settles only once, so the observable outcome of a failed read is
  exactly the read error; the embedding returns it directly.
* Promise rejection is modelled by `Except JsError`.  Exceptions thrown inside
  the `try` blocks (dereferencing `undefined`, calling `.split` on a boolean)
  are `JsError.typeError`.
* The recursion of `resolveComponent` follows dynamically loaded files and can
  diverge on a cyclic `extends` chain, so it is bounded by an explicit `fuel`
  parameter; running out of fuel gives the artificial `JsError.fuelExhausted`.
  Every claim below holds for all sufficiently large fuel values.
* `node:path` helpers are modelled for normalised inputs: `pathJoin` joins two
  non-empty segments with a single separator and `pathDirname` drops the last
  `/`-separated segment.
* In the `__fromJest` alias mode the alias keys are fed to `new RegExp(k)`.
  The embedding models the pattern as a literal one (no regular-expression
  metacharacters): `test` is substring occurrence (`regexTest`) and `replace`
  replaces the first occurrence (`regexReplaceFirst`), inserting the
  replacement string literally.  That is exactly the JS behaviour whenever the
  key contains no metacharacters (`isLiteralPattern`) and the replacement
  contains no dollar sequence (`isLiteralReplacement`); theorems about the
  pattern mode carry these predicates as hypotheses.  The `if (matchingAlias)`
  test at line 93 is a JS truthiness test on the found alias *key*, so a found
  empty-string key falls back to the context join exactly like no match at all;
  `resolveExtendsPath` embeds this check.
* At line 122 the JS reads `node.type = 'tag' && node.name === opts.EXTENSIONS_TAG`.
  `=` binds last, so this *assigns* `node.name === tag` to `node.type` and the
  predicate effectively used by `find`/`filter` is `node.name === tag`; text
  nodes have no `name` (`undefined === tag` is false), so the predicate holds
  exactly for element nodes carrying that tag name.  The incidental mutation of
  `node.type` is never observable in the loader's output.  `isElemNamed` embeds
  the effective predicate.
* At line 128 both attribute lookups may be `undefined`, and in JS
  `undefined === undefined` holds; comparing the two `Option String` lookups
  with `==` models this faithfully.
-/

/-- The configurable tag/attribute vocabulary (`options` in `src/index.js`). -/
structure Options where
  EXT_POINT_TAG : String
  EXTENSIONS_TAG : String
  EXTENSION_TAG : String
  EXT_POINT_NAME_ATTR : String
  EXT_POINT_REF_ATTR : String
  EXTENDABLE_ATTR : String
  EXTENDS_ATTR : String

/-- The `defaultOptions` literal of `src/index.js`, lines 10-18. -/
def defaultOptions : Options :=
  { EXT_POINT_TAG := "extension-point"
    EXTENSIONS_TAG := "extensions"
    EXTENSION_TAG := "extension"
    EXT_POINT_NAME_ATTR := "name"
    EXT_POINT_REF_ATTR := "point"
    EXTENDABLE_ATTR := "extendable"
    EXTENDS_ATTR := "extends" }

/-- An SFC-section attribute value: the JS boolean `true` (bare attribute) or a
string, as produced by the SFC parser. -/
inductive AttrVal where
  | bTrue
  | str (s : String)
deriving DecidableEq

/-- A DOM node as produced by htmlparser2: an element with a tag name, an
attribute map and children, or a text node. -/
inductive Node where
  | element (name : String) (attribs : List (String × String)) (children : List Node)
  | text (data : String)

/-- A non-template SFC section (`script`, a style or a custom block). -/
structure Block where
  type : String
  attrs : List (String × AttrVal)
  content : String

/-- The template section of an SFC descriptor; its content string is kept in
parsed form (see the header: the DOM codec round trip is the identity). -/
structure TemplateSection where
  attrs : List (String × AttrVal)
  dom : List Node

/-- The SFC descriptor returned by `toDescriptor` (`parse` of
`@vue/component-compiler-utils`). -/
structure Descriptor where
  template : Option TemplateSection
  script : Option Block
  styles : List Block
  customBlocks : List Block

/-- The resolution value `{source, ancestorsPaths}` of `resolveComponent` and
`getMergedCode`. -/
structure ResolveResult where
  source : Descriptor
  ancestorsPaths : List String

/-- A promise rejection value: a file-read error carrying the path, a thrown
`TypeError`, or the artificial out-of-fuel marker of the bounded embedding. -/
inductive JsError where
  | ioError (path : String)
  | typeError (msg : String)
  | fuelExhausted
deriving DecidableEq

/-- Lookup of an SFC-section attribute (`section.attrs[key]`). -/
def attrValue (attrs : List (String × AttrVal)) (key : String) : Option AttrVal :=
  (attrs.find? (fun kv => kv.1 = key)).map (·.2)

/-- Lookup of a DOM attribute (`node.attribs[key]`). -/
def domAttr (attribs : List (String × String)) (key : String) : Option String :=
  (attribs.find? (fun kv => kv.1 = key)).map (·.2)

/-- JS truthiness of an SFC attribute lookup: missing and `""` are falsy. -/
def truthyAttr : Option AttrVal → Bool
  | some .bTrue => true
  | some (.str s) => if s = "" then false else true
  | none => false

/-- JS truthiness of a string-valued lookup (alias table entries). -/
def truthyStr : Option String → Bool
  | some s => if s = "" then false else true
  | none => false

/-- Embeds `delete attribs[key]` on a DOM attribute map. -/
def eraseAttr (attribs : List (String × String)) (key : String) : List (String × String) :=
  attribs.filter (fun kv => kv.1 ≠ key)

/-- The effective predicate of lines 122-123: `node.name === tag` (see header on
the assignment mix-up; text nodes never satisfy it). -/
def isElemNamed (tag : String) : Node → Bool
  | .element n _ _ => n = tag
  | .text _ => false

/-- Embeds `node.children` (text nodes have none). -/
def nodeChildren : Node → List Node
  | .element _ _ c => c
  | .text _ => []

/-- Embeds `node.attribs` (text nodes have none). -/
def nodeAttribs : Node → List (String × String)
  | .element _ a _ => a
  | .text _ => []

/-- Embeds `findDomElementsByTagName` (line 186): all elements of the given tag name,
at any depth, in document pre-order (`DomUtils.findAll`). -/
def findDomElementsByTagName (dom : List Node) (tag : String) : List Node :=
  match dom with
  | [] => []
  | .element n a c :: rest =>
    (if n = tag then [Node.element n a c] else []) ++
      findDomElementsByTagName c tag ++ findDomElementsByTagName rest tag
  | .text _ :: rest => findDomElementsByTagName rest tag

/-- Whether the tree contains an element with the given tag name, at any depth. -/
def containsTagName (dom : List Node) (tag : String) : Bool :=
  !(findDomElementsByTagName dom tag).isEmpty

/-- Lines 126-138: for every extension point in the base tree, look up the first
extension block whose `point` attribute equals the point's name attribute; if
found, replace the point's children with the block's children, retag the node to
`template` and drop the name attribute.  An unmatched point keeps its tag,
attributes and (recursively processed) children.  The JS performs this by
mutating the nodes collected by `findDomElementsByTagName`; the children spliced
in from a block were not part of the collected tree, hence are not processed,
which the matched branch reflects by not recursing. -/
def applyExtensions (opts : Options) (extensions : List Node) : List Node → List Node
  | [] => []
  | .text s :: rest => .text s :: applyExtensions opts extensions rest
  | .element n a c :: rest =>
    if n = opts.EXT_POINT_TAG then
      match extensions.find? (fun blk =>
          domAttr (nodeAttribs blk) opts.EXT_POINT_REF_ATTR
            == domAttr a opts.EXT_POINT_NAME_ATTR) with
      | some blk =>
        .element "template" (eraseAttr a opts.EXT_POINT_NAME_ATTR) (nodeChildren blk)
          :: applyExtensions opts extensions rest
      | none =>
        .element n a (applyExtensions opts extensions c)
          :: applyExtensions opts extensions rest
    else
      .element n a (applyExtensions opts extensions c)
        :: applyExtensions opts extensions rest

/-- Lines 54-57 (the finalisation pass of `getMergedCode`): every extension
point, at any depth, is retagged to `template` and loses its name attribute;
children are kept (and processed too, since `findAll` collects nested points). -/
def finalizeExtensionPoints (opts : Options) : List Node → List Node
  | [] => []
  | .text s :: rest => .text s :: finalizeExtensionPoints opts rest
  | .element n a c :: rest =>
    if n = opts.EXT_POINT_TAG then
      .element "template" (eraseAttr a opts.EXT_POINT_NAME_ATTR)
          (finalizeExtensionPoints opts c)
        :: finalizeExtensionPoints opts rest
    else
      .element n a (finalizeExtensionPoints opts c)
        :: finalizeExtensionPoints opts rest

/-- Embeds `descriptorToHTML` (lines 195-204): the non-template sections of a
descriptor — custom blocks whose type is not the extension tag, then the script,
then the styles.  In structured form: the same descriptor without its template
and with extension-typed custom blocks filtered out. -/
def descriptorToHTML (opts : Options) (descriptor : Descriptor) : Descriptor :=
  { template := none
    script := descriptor.script
    styles := descriptor.styles
    customBlocks := descriptor.customBlocks.filter (fun cb => cb.type ≠ opts.EXTENSION_TAG) }

/-- Splitting a char list on separator characters (the behaviour of JS string
splitting with a character-class pattern). -/
def splitCharsBy (isSep : Char → Bool) : List Char → List (List Char)
  | [] => [[]]
  | c :: rest =>
    match splitCharsBy isSep rest with
    | [] => [[]]
    | h :: t => if isSep c then [] :: h :: t else (c :: h) :: t

/-- Embeds `baseRelPath.split(/[\/\\]/)` (line 80). -/
def splitPathSeps (s : String) : List String :=
  (splitCharsBy (fun c => c = '/' || c = '\\') s.toList).map String.mk

/-- Models `path.join` of `node:path` for normalised inputs: empty parts are
dropped, and two non-empty parts are joined with a single `/`. -/
def pathJoin (a b : String) : String :=
  if a = "" then b else if b = "" then a else a ++ "/" ++ b

/-- Models `path.dirname` of `node:path` for normalised inputs: drop the last
`/`-separated segment; a separator-free path has dirname `.`. -/
def pathDirname (p : String) : String :=
  let parts := (splitCharsBy (fun c => c = '/') p.toList).map String.mk
  if parts.length ≤ 1 then "." else String.intercalate "/" parts.dropLast

/-- Prefix-test-based first-occurrence search, the behaviour of
`new RegExp(k).test(s)` for a metacharacter-free pattern. -/
def containsL (needle : List Char) : List Char → Bool
  | [] => needle.isPrefixOf []
  | c :: rest => needle.isPrefixOf (c :: rest) || containsL needle rest

/-- First-occurrence replacement, the behaviour of `s.replace(new RegExp(k), t)`
for a metacharacter-free pattern. -/
def replaceFirstL (needle target : List Char) : List Char → List Char
  | [] => if needle.isPrefixOf ([] : List Char) then target else []
  | c :: rest =>
    if needle.isPrefixOf (c :: rest) then target ++ (c :: rest).drop needle.length
    else c :: replaceFirstL needle target rest

/-- Embeds `new RegExp(pat).test(s)` for a metacharacter-free pattern string. -/
def regexTest (pat s : String) : Bool :=
  containsL pat.toList s.toList

/-- Embeds `s.replace(new RegExp(pat), target)` for a metacharacter-free
pattern and a replacement string free of dollar signs (JS `replace` gives
dollar sequences in the replacement a special meaning, which this literal
insertion does not model). -/
def regexReplaceFirst (pat target s : String) : String :=
  String.mk (replaceFirstL pat.toList target.toList s.toList)

/-- Characters with a special meaning inside a regular-expression pattern; a
pattern free of them is matched by `new RegExp` as a literal substring. -/
def regexMetachars : List Char :=
  ['\\', '^', '$', '.', '|', '?', '*', '+', '(', ')', '[', ']', '\x7b', '\x7d']

/-- Whether `new RegExp` treats the pattern string as a literal substring, i.e.
the string contains no regular-expression metacharacters — the domain on which
`regexTest` and `regexReplaceFirst` model the JS behaviour exactly. -/
def isLiteralPattern (s : String) : Bool :=
  s.toList.all (fun c => !(regexMetachars.contains c))

/-- Whether JS `replace` inserts the replacement string literally, i.e. it
contains no dollar sign starting a special replacement sequence. -/
def isLiteralReplacement (s : String) : Bool :=
  s.toList.all (fun c => c ≠ '$')

/-- The `/^(\/\/\n)+/` strip of lines 47-49: remove leading `//`-newline lines
from the script content. -/
def stripCommentLines : List Char → List Char
  | '/' :: '/' :: '\n' :: rest => stripCommentLines rest
  | l => l

/-- Alias-table lookup (`aliases[key]`); the table is an insertion-ordered list,
as `Object.keys` enumeration order. -/
def aliasValue (aliases : List (String × String)) (key : String) : Option String :=
  (aliases.find? (fun kv => kv.1 = key)).map (·.2)

/-- Lines 79-103: resolve the `extends` reference to an absolute path.  If the
sentinel key `__fromJest` is truthy in the alias table, `matchingAlias` is the
first alias key whose pattern matches anywhere in the reference; otherwise it is
the first alias key equal to the first path segment.  Line 93 then checks
`if (matchingAlias)` — a *truthiness* test on the found key, so both a missing
match and a found but *empty-string* key (falsy in JS) fall back to joining the
reference onto the current context directory.  A truthy match substitutes: by
first-occurrence replacement in the jest mode, by segment replacement plus join
in the plain mode. -/
def resolveExtendsPath (aliases : List (String × String)) (currPath baseRelPath : String) :
    String :=
  let baseRelPathParts := splitPathSeps baseRelPath
  if truthyStr (aliasValue aliases "__fromJest") then
    match aliases.find? (fun kv => regexTest kv.1 baseRelPath) with
    | some kv =>
      if kv.1 = "" then pathJoin currPath baseRelPath
      else regexReplaceFirst kv.1 kv.2 baseRelPath
    | none => pathJoin currPath baseRelPath
  else
    match aliases.find? (fun kv => baseRelPathParts.head? = some kv.1) with
    | some kv =>
      if kv.1 = "" then pathJoin currPath baseRelPath
      else pathJoin kv.2 (String.intercalate "/" baseRelPathParts.tail)
    | none => pathJoin currPath baseRelPath

/-- Lines 116-147, the merge step performed after the recursive resolution of
the base: dereference the resolved base's template (absent makes the JS throw),
locate the first top-level `extensions` element of the current template (absence
makes the `.children` access throw), filter its element children named with the
extension tag, fill the base tree's extension points from them, and rebuild the
source as the extendable-marked base tree followed by the current component's
non-template sections, appending the base's path to the ancestor list. -/
def mergeWithBase (opts : Options) (currentDesc : Descriptor) (tmpl : TemplateSection)
    (baseAbsPath : String) (res : ResolveResult) : Except JsError ResolveResult :=
  match res.source.template with
  | none => .error (.typeError "undefined base template content")
  | some baseTmpl =>
    match tmpl.dom.find? (isElemNamed opts.EXTENSIONS_TAG) with
    | none => .error (.typeError "undefined extensions container children")
    | some container =>
      let extensions := (nodeChildren container).filter (isElemNamed opts.EXTENSION_TAG)
      .ok ⟨{ descriptorToHTML opts currentDesc with
             template := some ⟨[(opts.EXTENDABLE_ATTR, .bTrue)],
                               applyExtensions opts extensions baseTmpl.dom⟩ },
           res.ancestorsPaths ++ [baseAbsPath]⟩

/-- Embeds `resolveComponent` (lines 71-162).  Base case: no template section, no
`extends` attribute, or a falsy (empty-string) one — the source is returned
unchanged with an empty ancestor list.  A bare `extends` attribute is the JS
boolean `true`, on which `.split` throws.  Recursive case: resolve the base
path, read the base file, recursively resolve it, then merge: the base tree's
extension points are filled from the extension blocks found under the first
top-level `extensions` element of the current template (absence of that element
makes the `.children` access throw), and the merged source is the base tree
re-marked `extendable` followed by the current component's non-template
sections; the base's own path is appended to the ancestor list returned by the
recursive call. -/
def resolveComponent (fs : String → Option Descriptor) (opts : Options)
    (aliases : List (String × String)) :
    Nat → Descriptor → String → Except JsError ResolveResult
  | fuel, currentDesc, currPath =>
    match currentDesc.template with
    | none => .ok ⟨currentDesc, []⟩
    | some tmpl =>
      match attrValue tmpl.attrs opts.EXTENDS_ATTR with
      | none => .ok ⟨currentDesc, []⟩
      | some .bTrue => .error (.typeError "baseRelPath.split is not a function")
      | some (.str baseRelPath) =>
        if baseRelPath = "" then .ok ⟨currentDesc, []⟩
        else
          match fuel with
          | 0 => .error .fuelExhausted
          | fuel + 1 =>
            match fs (resolveExtendsPath aliases currPath baseRelPath) with
            | none => .error (.ioError (resolveExtendsPath aliases currPath baseRelPath))
            | some contents =>
              match resolveComponent fs opts aliases fuel contents
                  (pathDirname (resolveExtendsPath aliases currPath baseRelPath)) with
              | .error e => .error e
              | .ok res =>
                mergeWithBase opts currentDesc tmpl
                  (resolveExtendsPath aliases currPath baseRelPath) res

/-- Lines 46-49: strip the leading `//`-lines the SFC parser inserts in front of
the script content. -/
def stripScriptComments : Option Block → Option Block
  | none => none
  | some s => some { s with content := String.mk (stripCommentLines s.content.toList) }

/-- Embeds `getMergedCode` (lines 41-69), the resolve-then-finalise pipeline.  After
`resolveComponent`, leading comment artifacts are stripped from the script; if
the merged template is marked `extendable`, the remaining extension points are
finalised and the source is rebuilt as a plain (unmarked) template followed by
the non-template sections; otherwise the resolved source is returned as-is
(note: in that branch the JS returns the *original* `source` string, so the
script strip is not reflected). -/
def getMergedCode (fs : String → Option Descriptor) (opts : Options)
    (aliases : List (String × String)) (fuel : Nat)
    (source : Descriptor) (currPath : String) : Except JsError ResolveResult :=
  match resolveComponent fs opts aliases fuel source currPath with
  | .error e => .error e
  | .ok res =>
    let finalDescriptor : Descriptor :=
      { res.source with script := stripScriptComments res.source.script }
    match finalDescriptor.template with
    | some tmpl =>
      if truthyAttr (attrValue tmpl.attrs opts.EXTENDABLE_ATTR) then
        .ok ⟨{ descriptorToHTML opts finalDescriptor with
               template := some ⟨[], finalizeExtensionPoints opts tmpl.dom⟩ },
             res.ancestorsPaths⟩
      else .ok ⟨res.source, res.ancestorsPaths⟩
    | none => .ok ⟨res.source, res.ancestorsPaths⟩

/-! ### Helper lemmas about the tree transforms -/

theorem findDomElementsByTagName_append (tag : String) (l₁ l₂ : List Node) :
    findDomElementsByTagName (l₁ ++ l₂) tag =
      findDomElementsByTagName l₁ tag ++ findDomElementsByTagName l₂ tag := by
  induction l₁, tag using findDomElementsByTagName.induct with
  | case1 tag => simp [findDomElementsByTagName]
  | case2 tag n a c rest ih1 ih2 => simp [findDomElementsByTagName, ih2]
  | case3 tag rest s ih => simp [findDomElementsByTagName, ih]

theorem containsTagName_eq_false_iff (dom : List Node) (tag : String) :
    containsTagName dom tag = false ↔ findDomElementsByTagName dom tag = [] := by
  simp [containsTagName, List.isEmpty_iff]

theorem applyExtensions_append (opts : Options) (extensions : List Node)
    (l₁ l₂ : List Node) :
    applyExtensions opts extensions (l₁ ++ l₂) =
      applyExtensions opts extensions l₁ ++ applyExtensions opts extensions l₂ := by
  induction l₁ with
  | nil => simp [applyExtensions]
  | cons hd rest ih =>
    cases hd with
    | text s => simp [applyExtensions, ih]
    | element n a c =>
      by_cases hn : n = opts.EXT_POINT_TAG
      · simp only [List.cons_append, applyExtensions, hn, if_true]
        cases extensions.find? (fun blk =>
            domAttr (nodeAttribs blk) opts.EXT_POINT_REF_ATTR
              == domAttr a opts.EXT_POINT_NAME_ATTR) with
        | none => simp [ih]
        | some blk => simp [ih]
      · simp [applyExtensions, hn, ih]

theorem applyExtensions_eq_self (opts : Options) (extensions : List Node)
    (l : List Node) (h : findDomElementsByTagName l opts.EXT_POINT_TAG = []) :
    applyExtensions opts extensions l = l := by
  induction l using applyExtensions.induct opts extensions with
  | case1 => simp [applyExtensions]
  | case2 s rest ih =>
    simp only [findDomElementsByTagName] at h
    simp [applyExtensions, ih h]
  | case3 a c rest blk hfind ih =>
    simp [findDomElementsByTagName] at h
  | case4 a c rest hfind ihc ih =>
    simp [findDomElementsByTagName] at h
  | case5 n a c rest hn ihc ih =>
    simp only [findDomElementsByTagName, hn, if_false, List.nil_append,
      List.append_eq_nil] at h
    simp [applyExtensions, hn, ihc h.1, ih h.2]

theorem finalizeExtensionPoints_eq_self (opts : Options)
    (l : List Node) (h : findDomElementsByTagName l opts.EXT_POINT_TAG = []) :
    finalizeExtensionPoints opts l = l := by
  induction l using finalizeExtensionPoints.induct opts with
  | case1 => simp [finalizeExtensionPoints]
  | case2 s rest ih =>
    simp only [findDomElementsByTagName] at h
    simp [finalizeExtensionPoints, ih h]
  | case3 a c rest ihc ih =>
    simp [findDomElementsByTagName] at h
  | case4 n a c rest hn ihc ih =>
    simp only [findDomElementsByTagName, hn, if_false, List.nil_append,
      List.append_eq_nil] at h
    simp [finalizeExtensionPoints, hn, ihc h.1, ih h.2]

theorem finalizeExtensionPoints_append (opts : Options) (l₁ l₂ : List Node) :
    finalizeExtensionPoints opts (l₁ ++ l₂) =
      finalizeExtensionPoints opts l₁ ++ finalizeExtensionPoints opts l₂ := by
  induction l₁ with
  | nil => simp [finalizeExtensionPoints]
  | cons hd rest ih =>
    cases hd with
    | text s => simp [finalizeExtensionPoints, ih]
    | element n a c =>
      by_cases hn : n = opts.EXT_POINT_TAG
      · subst hn; simp [finalizeExtensionPoints, ih]
      · simp [finalizeExtensionPoints, hn, ih]

/-- After finalisation no element carries the extension-point tag, provided the
configured tag is not the literal `template` the points are retagged to. -/
theorem findDomElementsByTagName_finalize (opts : Options)
    (hne : opts.EXT_POINT_TAG ≠ "template") (l : List Node) :
    findDomElementsByTagName (finalizeExtensionPoints opts l) opts.EXT_POINT_TAG = [] := by
  induction l using finalizeExtensionPoints.induct opts with
  | case1 => simp [finalizeExtensionPoints, findDomElementsByTagName]
  | case2 s rest ih => simp [finalizeExtensionPoints, findDomElementsByTagName, ih]
  | case3 a c rest ihc ih =>
    simp [finalizeExtensionPoints, findDomElementsByTagName, Ne.symm hne, ihc, ih]
  | case4 n a c rest hn ihc ih =>
    simp [finalizeExtensionPoints, findDomElementsByTagName, hn, ihc, ih]

/-! ### C4: base case identity -/

/-- C4: for every component source whose descriptor has no template section, or
whose template attributes do not contain the configured extends key,
`resolveComponent` returns the input source unchanged with an empty ancestor
list, for every fuel (even 0, no recursion) and every file system (no read). -/
theorem resolveComponent_base_case_identity
    (fs : String → Option Descriptor) (opts : Options)
    (aliases : List (String × String)) (fuel : Nat)
    (src : Descriptor) (currPath : String)
    (h : src.template = none ∨
      ∃ tmpl, src.template = some tmpl ∧ attrValue tmpl.attrs opts.EXTENDS_ATTR = none) :
    resolveComponent fs opts aliases fuel src currPath = .ok ⟨src, []⟩ := by
  rw [resolveComponent.eq_1]
  rcases h with h | ⟨tmpl, ht, ha⟩
  · rw [h]
  · rw [ht]
    simp [ha]

/-- Witness for C4 at a concrete component (template present, no extends key),
with zero fuel and an everywhere-failing file system. -/
theorem resolveComponent_base_case_identity_witness :
    resolveComponent (fun _ => none) defaultOptions [] 0
      ⟨some ⟨[("lang", .str "html")], [Node.text "x"]⟩, none, [], []⟩ "/app" =
      .ok ⟨⟨some ⟨[("lang", .str "html")], [Node.text "x"]⟩, none, [], []⟩, []⟩ :=
  resolveComponent_base_case_identity (fun _ => none) defaultOptions [] 0
    ⟨some ⟨[("lang", .str "html")], [Node.text "x"]⟩, none, [], []⟩ "/app"
    (Or.inr ⟨⟨[("lang", .str "html")], [Node.text "x"]⟩, rfl, rfl⟩)

/-! ### C9: empty extends reference -/

/-- C9 (amended): an empty `extends` reference is falsy in JS, so the component
is treated exactly like one without an `extends` attribute: `resolveComponent`
returns the source unchanged with an empty ancestor list; no
`InvalidReferenceError` exists anywhere in the code, and no path is computed
(the result depends neither on the alias table nor on the file system). -/
theorem resolveComponent_empty_extends_base_case
    (fs : String → Option Descriptor) (opts : Options)
    (aliases : List (String × String)) (fuel : Nat)
    (src : Descriptor) (currPath : String) (tmpl : TemplateSection)
    (ht : src.template = some tmpl)
    (ha : attrValue tmpl.attrs opts.EXTENDS_ATTR = some (.str "")) :
    resolveComponent fs opts aliases fuel src currPath = .ok ⟨src, []⟩ := by
  rw [resolveComponent.eq_1, ht]
  simp [ha]

/-- Witness for C9's amended theorem at a concrete component carrying
`extends=""`. -/
theorem resolveComponent_empty_extends_base_case_witness :
    resolveComponent (fun _ => none) defaultOptions [("@", "/lib")] 3
      ⟨some ⟨[("extends", .str "")], [Node.text "y"]⟩, none, [], []⟩ "/pages" =
      .ok ⟨⟨some ⟨[("extends", .str "")], [Node.text "y"]⟩, none, [], []⟩, []⟩ :=
  resolveComponent_empty_extends_base_case (fun _ => none) defaultOptions [("@", "/lib")] 3
    ⟨some ⟨[("extends", .str "")], [Node.text "y"]⟩, none, [], []⟩ "/pages"
    ⟨[("extends", .str "")], [Node.text "y"]⟩ rfl rfl

/-- Counterexample to C9 as stated: a component whose `extends` value is the
empty reference does not fail at all — in particular it does not fail with any
`InvalidReferenceError`, which does not exist in the code.  The resolution
silently succeeds, returning the source unchanged. -/
theorem resolveComponent_empty_extends_counterexample :
    resolveComponent (fun _ => none) defaultOptions [] 1
      ⟨some ⟨[("extends", .str "")], [Node.text "t"]⟩, none, [], []⟩ "/app" =
      .ok ⟨⟨some ⟨[("extends", .str "")], [Node.text "t"]⟩, none, [], []⟩, []⟩ := by
  rfl

/-! ### C5: non-template isolation -/

/-- A successful merge step builds its non-template sections exclusively from
the current (most-derived) descriptor: script and styles unchanged, custom
blocks with the extension-typed ones filtered out. -/
theorem mergeWithBase_sections (opts : Options) (currentDesc : Descriptor)
    (tmpl : TemplateSection) (baseAbsPath : String) (res : ResolveResult) (r : ResolveResult)
    (h : mergeWithBase opts currentDesc tmpl baseAbsPath res = .ok r) :
    r.source.script = currentDesc.script ∧ r.source.styles = currentDesc.styles ∧
      r.source.customBlocks =
        currentDesc.customBlocks.filter (fun cb => cb.type ≠ opts.EXTENSION_TAG) := by
  rw [mergeWithBase] at h
  repeat' split at h
  all_goals cases h
  exact ⟨rfl, rfl, rfl⟩

/-- C5: whenever `resolveComponent` succeeds, the script and the styles of the
merged output are exactly the most-derived component's own, and its custom
blocks are the most-derived component's own — unchanged in the base case, with
the extension-typed blocks filtered out in the merge case.  No ancestor section
ever appears: the output sections are built from the input descriptor only. -/
theorem resolveComponent_non_template_isolation
    (fs : String → Option Descriptor) (opts : Options)
    (aliases : List (String × String)) (fuel : Nat)
    (src : Descriptor) (currPath : String) (r : ResolveResult)
    (h : resolveComponent fs opts aliases fuel src currPath = .ok r) :
    r.source.script = src.script ∧ r.source.styles = src.styles ∧
      (r.source.customBlocks = src.customBlocks ∨
        r.source.customBlocks =
          src.customBlocks.filter (fun cb => cb.type ≠ opts.EXTENSION_TAG)) := by
  rw [resolveComponent.eq_1] at h
  repeat' split at h
  all_goals try (cases h)
  all_goals first
    | exact ⟨rfl, rfl, Or.inl rfl⟩
    | (obtain ⟨h1, h2, h3⟩ := mergeWithBase_sections opts src _ _ _ r h
       exact ⟨h1, h2, Or.inr h3⟩)

/-- Witness for C5 at a concrete single-level merge: a derived component with a
script, a style and an extension-typed custom block extending a concrete base
with its own (different) script and style. -/
theorem resolveComponent_non_template_isolation_witness :
    resolveComponent
        (fun p => if p = "/app/Base.vue" then
          some ⟨some ⟨[], [Node.element "extension-point" [("name", "hdr")] []]⟩,
                some ⟨"script", [], "base script"⟩, [⟨"style", [], ".b{}"⟩], []⟩
          else none)
        defaultOptions [] 1
        ⟨some ⟨[("extends", .str "Base.vue")],
               [Node.element "extensions" [] []]⟩,
         some ⟨"script", [], "derived script"⟩, [⟨"style", [], ".d{}"⟩],
         [⟨"extension", [], "x"⟩, ⟨"docs", [], "d"⟩]⟩
        "/app" = .ok
      ⟨⟨some ⟨[("extendable", .bTrue)],
             [Node.element "extension-point" [("name", "hdr")] []]⟩,
        some ⟨"script", [], "derived script"⟩, [⟨"style", [], ".d{}"⟩],
        [⟨"docs", [], "d"⟩]⟩,
       ["/app/Base.vue"]⟩ ∧
    (some ⟨"script", [], "derived script"⟩ : Option Block) =
      some ⟨"script", [], "derived script"⟩ ∧
    [(⟨"style", [], ".d{}"⟩ : Block)] = [⟨"style", [], ".d{}"⟩] ∧
    ([(⟨"docs", [], "d"⟩ : Block)] =
        [(⟨"extension", [], "x"⟩ : Block), ⟨"docs", [], "d"⟩] ∨
      [(⟨"docs", [], "d"⟩ : Block)] =
        [(⟨"extension", [], "x"⟩ : Block), ⟨"docs", [], "d"⟩].filter
          (fun cb => cb.type ≠ defaultOptions.EXTENSION_TAG)) := by
  refine ⟨?_, ?_⟩
  · simp only [resolveComponent.eq_1]
    simp [defaultOptions, applyExtensions, mergeWithBase, descriptorToHTML,
      resolveExtendsPath, attrValue, truthyStr, aliasValue, regexTest, containsL,
      splitPathSeps, splitCharsBy, pathJoin, isElemNamed, nodeChildren, domAttr,
      nodeAttribs, eraseAttr, List.find?, List.filter, Option.map]
  · exact resolveComponent_non_template_isolation
      (fun p => if p = "/app/Base.vue" then
        some ⟨some ⟨[], [Node.element "extension-point" [("name", "hdr")] []]⟩,
              some ⟨"script", [], "base script"⟩, [⟨"style", [], ".b{}"⟩], []⟩
        else none)
      defaultOptions [] 1
      ⟨some ⟨[("extends", .str "Base.vue")],
             [Node.element "extensions" [] []]⟩,
       some ⟨"script", [], "derived script"⟩, [⟨"style", [], ".d{}"⟩],
       [⟨"extension", [], "x"⟩, ⟨"docs", [], "d"⟩]⟩
      "/app"
      ⟨⟨some ⟨[("extendable", .bTrue)],
             [Node.element "extension-point" [("name", "hdr")] []]⟩,
        some ⟨"script", [], "derived script"⟩, [⟨"style", [], ".d{}"⟩],
        [⟨"docs", [], "d"⟩]⟩,
       ["/app/Base.vue"]⟩
      (by
        simp only [resolveComponent.eq_1]
        simp [defaultOptions, applyExtensions, mergeWithBase, descriptorToHTML,
          resolveExtendsPath, attrValue, truthyStr, aliasValue, regexTest, containsL,
          splitPathSeps, splitCharsBy, pathJoin, isElemNamed, nodeChildren, domAttr,
          nodeAttribs, eraseAttr, List.find?, List.filter, Option.map])

/-! ### C8: read failures abort the whole chain -/

/-- C8: a failed ancestor read rejects the whole resolution with that read
error, and any error of the recursive resolution of the base (in particular a
read error deeper in the chain) is propagated unchanged to the top-level
result.  Together the two parts give, by induction along the chain, that a read
failure anywhere rejects the top-level resolve with exactly that error: no
partial merged source is produced, the unreadable ancestor is not treated as a
base case, and no retry occurs. -/
theorem resolveComponent_read_error_aborts
    (fs : String → Option Descriptor) (opts : Options)
    (aliases : List (String × String)) (fuel : Nat)
    (src : Descriptor) (currPath : String) (tmpl : TemplateSection) (baseRelPath : String)
    (ht : src.template = some tmpl)
    (ha : attrValue tmpl.attrs opts.EXTENDS_ATTR = some (.str baseRelPath))
    (hne : baseRelPath ≠ "") :
    (fs (resolveExtendsPath aliases currPath baseRelPath) = none →
      resolveComponent fs opts aliases (fuel + 1) src currPath =
        .error (.ioError (resolveExtendsPath aliases currPath baseRelPath))) ∧
    (∀ contents e, fs (resolveExtendsPath aliases currPath baseRelPath) = some contents →
      resolveComponent fs opts aliases fuel contents
          (pathDirname (resolveExtendsPath aliases currPath baseRelPath)) = .error e →
      resolveComponent fs opts aliases (fuel + 1) src currPath = .error e) := by
  constructor
  · intro hread
    rw [resolveComponent.eq_1, ht]
    simp [ha, hne, hread]
  · intro contents e hread hrec
    rw [resolveComponent.eq_1, ht]
    simp [ha, hne, hread, hrec]

/-- Witness for C8 at a two-level chain: the derived component's base file reads
fine but the base's own base file is unreadable; the read error for the missing
grand-ancestor is the top-level result, through both parts of the theorem. -/
theorem resolveComponent_read_error_aborts_witness :
    resolveComponent
        (fun p => if p = "/app/Mid.vue" then
          some ⟨some ⟨[("extends", .str "Root.vue")], [Node.element "extensions" [] []]⟩,
                none, [], []⟩
          else none)
        defaultOptions [] 2
        ⟨some ⟨[("extends", .str "Mid.vue")], [Node.element "extensions" [] []]⟩,
         none, [], []⟩
        "/app" = .error (.ioError (resolveExtendsPath [] (pathDirname "/app/Mid.vue") "Root.vue")) := by
  have hmid := (resolveComponent_read_error_aborts
    (fun p => if p = "/app/Mid.vue" then
      some ⟨some ⟨[("extends", .str "Root.vue")], [Node.element "extensions" [] []]⟩,
            none, [], []⟩
      else none)
    defaultOptions [] 0
    ⟨some ⟨[("extends", .str "Root.vue")], [Node.element "extensions" [] []]⟩, none, [], []⟩
    (pathDirname "/app/Mid.vue")
    ⟨[("extends", .str "Root.vue")], [Node.element "extensions" [] []]⟩ "Root.vue"
    rfl rfl (by decide)).1
    (by rfl)
  exact (resolveComponent_read_error_aborts
    (fun p => if p = "/app/Mid.vue" then
      some ⟨some ⟨[("extends", .str "Root.vue")], [Node.element "extensions" [] []]⟩,
            none, [], []⟩
      else none)
    defaultOptions [] 1
    ⟨some ⟨[("extends", .str "Mid.vue")], [Node.element "extensions" [] []]⟩, none, [], []⟩
    "/app"
    ⟨[("extends", .str "Mid.vue")], [Node.element "extensions" [] []]⟩ "Mid.vue"
    rfl rfl (by decide)).2
    ⟨some ⟨[("extends", .str "Root.vue")], [Node.element "extensions" [] []]⟩, none, [], []⟩
    (.ioError (resolveExtendsPath [] (pathDirname "/app/Mid.vue") "Root.vue"))
    (by rfl)
    hmid

/-! ### C10: missing extensions container -/

/-- C10: a derived component with an `extends` attribute whose template has no
top-level element named with the extensions-container tag makes
`resolveComponent` reject with the thrown error of the `.children` dereference
of the failed container lookup (after the base was read and resolved), instead
of merging with all points unfilled.  The lookup inspects only the top-level
nodes of the current template (`currentDom.find`), so a container nested at any
deeper level is not found — the hypotheses constrain only the top level, and
the witness exhibits a template whose container sits one level deep. -/
theorem resolveComponent_missing_container_error
    (fs : String → Option Descriptor) (opts : Options)
    (aliases : List (String × String)) (fuel : Nat)
    (src : Descriptor) (currPath : String) (tmpl : TemplateSection) (baseRelPath : String)
    (bres : ResolveResult) (btmpl : TemplateSection)
    (ht : src.template = some tmpl)
    (ha : attrValue tmpl.attrs opts.EXTENDS_ATTR = some (.str baseRelPath))
    (hne : baseRelPath ≠ "")
    (hread : ∃ base, fs (resolveExtendsPath aliases currPath baseRelPath) = some base ∧
      resolveComponent fs opts aliases fuel base
        (pathDirname (resolveExtendsPath aliases currPath baseRelPath)) = .ok bres)
    (hbt : bres.source.template = some btmpl)
    (hnoc : tmpl.dom.find? (isElemNamed opts.EXTENSIONS_TAG) = none) :
    resolveComponent fs opts aliases (fuel + 1) src currPath =
      .error (.typeError "undefined extensions container children") := by
  obtain ⟨base, hread, hbase⟩ := hread
  rw [resolveComponent.eq_1, ht]
  simp only [ha, hne, if_false, hread, hbase]
  rw [mergeWithBase]
  simp [hbt, hnoc]

/-- Witness for C10: the derived template carries its `extensions` container
nested inside a `div` (not at top level), so resolution rejects even though a
container exists deeper in the tree. -/
theorem resolveComponent_missing_container_error_witness :
    resolveComponent
        (fun p => if p = "/app/Base.vue" then
          some ⟨some ⟨[], [Node.element "extension-point" [("name", "p")] []]⟩, none, [], []⟩
          else none)
        defaultOptions [] 1
        ⟨some ⟨[("extends", .str "Base.vue")],
               [Node.element "div" []
                 [Node.element "extensions" []
                   [Node.element "extension" [("point", "p")] [Node.text "c"]]]]⟩,
         none, [], []⟩
        "/app" = .error (.typeError "undefined extensions container children") :=
  resolveComponent_missing_container_error
    (fun p => if p = "/app/Base.vue" then
      some ⟨some ⟨[], [Node.element "extension-point" [("name", "p")] []]⟩, none, [], []⟩
      else none)
    defaultOptions [] 0
    ⟨some ⟨[("extends", .str "Base.vue")],
           [Node.element "div" []
             [Node.element "extensions" []
               [Node.element "extension" [("point", "p")] [Node.text "c"]]]]⟩,
     none, [], []⟩
    "/app"
    ⟨[("extends", .str "Base.vue")],
     [Node.element "div" []
       [Node.element "extensions" []
         [Node.element "extension" [("point", "p")] [Node.text "c"]]]]⟩
    "Base.vue"
    ⟨⟨some ⟨[], [Node.element "extension-point" [("name", "p")] []]⟩, none, [], []⟩, []⟩
    ⟨[], [Node.element "extension-point" [("name", "p")] []]⟩
    rfl rfl (by decide)
    ⟨⟨some ⟨[], [Node.element "extension-point" [("name", "p")] []]⟩, none, [], []⟩,
     by rfl,
     by rfl⟩
    rfl (by rfl)

/-! ### C7: alias resolution -/

/-- First-occurrence replacement on a string that starts with the pattern
replaces exactly that leading occurrence. -/
theorem replaceFirstL_of_leading (needle target hay : List Char) :
    replaceFirstL needle target (needle ++ hay) = target ++ hay := by
  have hp : needle.isPrefixOf (needle ++ hay) = true := by
    simp [List.isPrefixOf_iff_prefix]
  cases hnh : needle ++ hay with
  | nil =>
    obtain ⟨h1, h2⟩ := List.append_eq_nil.mp hnh
    subst h1
    subst h2
    simp [replaceFirstL, List.isPrefixOf]
  | cons c rest =>
    rw [hnh] at hp
    rw [replaceFirstL.eq_2, if_pos hp, ← hnh, List.drop_left]

/-- String form of `replaceFirstL_of_leading` for a reference of the shape
`key ++ "/" ++ remainder`. -/
theorem regexReplaceFirst_of_leading (k target rest : String) :
    regexReplaceFirst k target (k ++ "/" ++ rest) = target ++ "/" ++ rest := by
  have h1 : (k ++ "/" ++ rest).toList = k.toList ++ ('/' :: rest.toList) := by
    simp [String.toList, String.data_append]
  have h2 : (target ++ "/" ++ rest).toList = target.toList ++ ('/' :: rest.toList) := by
    simp [String.toList, String.data_append]
  rw [regexReplaceFirst, h1, replaceFirstL_of_leading, ← h2]
  rfl

/-- C7 (amended): in plain first-segment mode, a reference whose first path
segment is matched by an alias entry (the first entry whose key equals that
segment, the key being non-empty, since line 93 tests the found key for JS
truthiness) resolves to exactly the alias target joined with the remaining
segments.  In the `__fromJest` pattern mode, the resolution instead replaces
the first occurrence of the *first* alias pattern (in table order) that
matches anywhere in the reference; this coincides with target-joined-remainder
only when every alias key is a literal (metacharacter-free) pattern, the first
matching entry is the one whose non-empty key the reference starts with,
followed by a separator and a non-empty remainder, and the target is a
non-empty dollar-free replacement string. -/
theorem resolveExtendsPath_alias_resolution
    (aliases : List (String × String)) (currPath k target rest baseRelPath : String) :
    (truthyStr (aliasValue aliases "__fromJest") = false →
      aliases.find? (fun kv => (splitPathSeps baseRelPath).head? = some kv.1) =
        some (k, target) →
      k ≠ "" →
      resolveExtendsPath aliases currPath baseRelPath =
        pathJoin target (String.intercalate "/" (splitPathSeps baseRelPath).tail)) ∧
    (truthyStr (aliasValue aliases "__fromJest") = true →
      (∀ kv ∈ aliases, isLiteralPattern kv.1 = true) →
      isLiteralReplacement target = true →
      aliases.find? (fun kv => regexTest kv.1 baseRelPath) = some (k, target) →
      baseRelPath = k ++ "/" ++ rest →
      k ≠ "" → target ≠ "" → rest ≠ "" →
      resolveExtendsPath aliases currPath baseRelPath = pathJoin target rest) := by
  constructor
  · intro hjest hfind hk
    rw [resolveExtendsPath]
    simp [hjest, hfind, hk]
  · intro hjest hkeys hrepl hfind hsplit hk htne hrne
    rw [resolveExtendsPath]
    simp [hjest, hfind, hk]
    rw [hsplit, regexReplaceFirst_of_leading]
    simp [pathJoin, htne, hrne]

/-- Witness for C7's amended theorem: the same alias resolved in both modes on
a concrete reference. -/
theorem resolveExtendsPath_alias_resolution_witness :
    resolveExtendsPath [("@c", "/src/components")] "/pages" "@c/Base.vue" =
      pathJoin "/src/components"
        (String.intercalate "/" (splitPathSeps "@c/Base.vue").tail) ∧
    resolveExtendsPath [("__fromJest", "1"), ("@c", "/src/components")] "/pages"
        "@c/Base.vue" = pathJoin "/src/components" "Base.vue" := by
  constructor
  · exact (resolveExtendsPath_alias_resolution [("@c", "/src/components")] "/pages"
      "@c" "/src/components" "Base.vue" "@c/Base.vue").1 rfl rfl (by decide)
  · exact (resolveExtendsPath_alias_resolution
      [("__fromJest", "1"), ("@c", "/src/components")] "/pages"
      "@c" "/src/components" "Base.vue" "@c/Base.vue").2 rfl (by decide) (by decide)
      rfl rfl (by decide) (by decide) (by decide)

/-- Counterexample to C7 as stated: in the pattern mode the first path segment
`b` of the reference `b/a` equals the alias key `b` (target `/T2`), yet the
resolution uses the earlier table entry `a` — whose pattern matches inside the
reference — and yields `b//T1`, not the claimed `/T2` joined with `a`. -/
theorem resolveExtendsPath_alias_counterexample :
    (splitPathSeps "b/a").head? = some "b" ∧
    aliasValue [("__fromJest", "1"), ("a", "/T1"), ("b", "/T2")] "b" = some "/T2" ∧
    resolveExtendsPath [("__fromJest", "1"), ("a", "/T1"), ("b", "/T2")] "/ctx" "b/a" =
      "b//T1" ∧
    "b//T1" ≠ pathJoin "/T2" "a" := by
  exact ⟨rfl, rfl, rfl, by decide⟩

/-! ### C6: extension-point vocabulary erasure -/

/-- C6 (amended): whenever the resolved merged source's template is marked
extendable — in particular after every successful merge, whose template is
re-marked extendable by construction — the finalisation pass of `getMergedCode`
retags every remaining extension point, and the finalised template tree
contains no element named with the extension-point tag (provided that tag is
not the literal `template` the points are retagged to).  Sources whose resolved
template is not marked extendable are returned by the pipeline unchanged and
may retain extension points (see the counterexample). -/
theorem getMergedCode_erases_extension_points
    (fs : String → Option Descriptor) (opts : Options)
    (aliases : List (String × String)) (fuel : Nat)
    (src : Descriptor) (currPath : String) (m : ResolveResult) (tmpl : TemplateSection)
    (hres : resolveComponent fs opts aliases fuel src currPath = .ok m)
    (ht : m.source.template = some tmpl)
    (hext : truthyAttr (attrValue tmpl.attrs opts.EXTENDABLE_ATTR) = true)
    (hne : opts.EXT_POINT_TAG ≠ "template") :
    getMergedCode fs opts aliases fuel src currPath =
      .ok ⟨{ descriptorToHTML opts
               { m.source with script := stripScriptComments m.source.script } with
             template := some ⟨[], finalizeExtensionPoints opts tmpl.dom⟩ },
           m.ancestorsPaths⟩ ∧
    containsTagName (finalizeExtensionPoints opts tmpl.dom) opts.EXT_POINT_TAG = false := by
  constructor
  · simp only [getMergedCode, hres]
    simp [ht, hext]
  · rw [containsTagName_eq_false_iff]
    exact findDomElementsByTagName_finalize opts hne tmpl.dom

/-- Witness for C6's amended theorem: a concrete extendable source with a
nested extension point; the finalised tree carries no extension-point tag. -/
theorem getMergedCode_erases_extension_points_witness :
    getMergedCode (fun _ => none) defaultOptions [] 1
        ⟨some ⟨[("extendable", .bTrue)],
               [Node.element "div" []
                 [Node.element "extension-point" [("name", "p")] [Node.text "D"]]]⟩,
         none, [], []⟩ "/app" =
      .ok ⟨{ descriptorToHTML defaultOptions
               { (⟨some ⟨[("extendable", .bTrue)],
                        [Node.element "div" []
                          [Node.element "extension-point" [("name", "p")] [Node.text "D"]]]⟩,
                  none, [], []⟩ : Descriptor) with
                 script := stripScriptComments none } with
             template := some ⟨[], finalizeExtensionPoints defaultOptions
               [Node.element "div" []
                 [Node.element "extension-point" [("name", "p")] [Node.text "D"]]]⟩ },
           []⟩ ∧
    containsTagName
      (finalizeExtensionPoints defaultOptions
        [Node.element "div" []
          [Node.element "extension-point" [("name", "p")] [Node.text "D"]]])
      defaultOptions.EXT_POINT_TAG = false :=
  getMergedCode_erases_extension_points (fun _ => none) defaultOptions [] 1
    ⟨some ⟨[("extendable", .bTrue)],
           [Node.element "div" []
             [Node.element "extension-point" [("name", "p")] [Node.text "D"]]]⟩,
     none, [], []⟩ "/app"
    ⟨⟨some ⟨[("extendable", .bTrue)],
           [Node.element "div" []
             [Node.element "extension-point" [("name", "p")] [Node.text "D"]]]⟩,
      none, [], []⟩, []⟩
    ⟨[("extendable", .bTrue)],
     [Node.element "div" []
       [Node.element "extension-point" [("name", "p")] [Node.text "D"]]]⟩
    rfl rfl rfl (by decide)

/-- Counterexample to C6 as stated: a component source that extends nothing and
whose template is not marked extendable — e.g. a base component with an
extension point, compiled on its own — passes through the full pipeline
unchanged, and the output does contain an element named with the configured
extension-point tag. -/
theorem getMergedCode_retains_extension_points_counterexample :
    getMergedCode (fun _ => none) defaultOptions [] 1
        ⟨some ⟨[], [Node.element "extension-point" [("name", "p")] [Node.text "D"]]⟩,
         none, [], []⟩ "/app" =
      .ok ⟨⟨some ⟨[], [Node.element "extension-point" [("name", "p")] [Node.text "D"]]⟩,
            none, [], []⟩, []⟩ ∧
    containsTagName [Node.element "extension-point" [("name", "p")] [Node.text "D"]]
      defaultOptions.EXT_POINT_TAG = true := by
  constructor
  · rfl
  · simp [containsTagName, findDomElementsByTagName, defaultOptions]

/-! ### C1: single-level merge -/

/-- Helper: a component whose template has no `extends` attribute resolves to
itself with no ancestors (the base case of the recursion). -/
theorem resolveComponent_no_extends (fs : String → Option Descriptor) (opts : Options)
    (aliases : List (String × String)) (fuel : Nat)
    (src : Descriptor) (currPath : String) (tmpl : TemplateSection)
    (ht : src.template = some tmpl)
    (ha : attrValue tmpl.attrs opts.EXTENDS_ATTR = none) :
    resolveComponent fs opts aliases fuel src currPath = .ok ⟨src, []⟩ := by
  rw [resolveComponent.eq_1, ht]
  simp [ha]

/-- C1: base template containing exactly one extension point named `P` (with
default children `D`, in an arbitrary context `pre`/`post` free of further
extension points), derived component whose first top-level extensions container
holds exactly one extension block targeting `P` with children `C`: the merged
source places `C` — retagged to a plain `template` container with the name
attribute removed — at the extension point's location, and `D` is gone. -/
theorem resolveComponent_single_level_merge
    (fs : String → Option Descriptor) (opts : Options) (aliases : List (String × String))
    (fuel : Nat) (currPath baseRelPath P : String)
    (dattrs battrs : List (String × AttrVal)) (pattrs cattrs eattrs : List (String × String))
    (ddom pre post D C blocks : List Node)
    (dscript bscript : Option Block) (dstyles dcustoms bstyles bcustoms : List Block)
    (hne : baseRelPath ≠ "")
    (hda : attrValue dattrs opts.EXTENDS_ATTR = some (.str baseRelPath))
    (hread : fs (resolveExtendsPath aliases currPath baseRelPath) =
      some ⟨some ⟨battrs, pre ++ [Node.element opts.EXT_POINT_TAG pattrs D] ++ post⟩,
            bscript, bstyles, bcustoms⟩)
    (hroot : attrValue battrs opts.EXTENDS_ATTR = none)
    (hP : domAttr pattrs opts.EXT_POINT_NAME_ATTR = some P)
    (hpre : findDomElementsByTagName pre opts.EXT_POINT_TAG = [])
    (hpost : findDomElementsByTagName post opts.EXT_POINT_TAG = [])
    (hcont : ddom.find? (isElemNamed opts.EXTENSIONS_TAG) =
      some (Node.element opts.EXTENSIONS_TAG cattrs blocks))
    (hblk : (blocks.filter (isElemNamed opts.EXTENSION_TAG)).find?
        (fun blk => domAttr (nodeAttribs blk) opts.EXT_POINT_REF_ATTR == some P) =
      some (Node.element opts.EXTENSION_TAG eattrs C)) :
    resolveComponent fs opts aliases (fuel + 1)
        ⟨some ⟨dattrs, ddom⟩, dscript, dstyles, dcustoms⟩ currPath =
      .ok ⟨⟨some ⟨[(opts.EXTENDABLE_ATTR, .bTrue)],
               pre ++ [Node.element "template" (eraseAttr pattrs opts.EXT_POINT_NAME_ATTR) C]
                 ++ post⟩,
            dscript, dstyles,
            dcustoms.filter (fun cb => cb.type ≠ opts.EXTENSION_TAG)⟩,
          [resolveExtendsPath aliases currPath baseRelPath]⟩ := by
  have hbase := resolveComponent_no_extends fs opts aliases fuel
    ⟨some ⟨battrs, pre ++ [Node.element opts.EXT_POINT_TAG pattrs D] ++ post⟩,
     bscript, bstyles, bcustoms⟩
    (pathDirname (resolveExtendsPath aliases currPath baseRelPath))
    ⟨battrs, pre ++ [Node.element opts.EXT_POINT_TAG pattrs D] ++ post⟩ rfl hroot
  rw [resolveComponent.eq_1]
  simp only [hda, hne, if_false, hread, hbase]
  rw [mergeWithBase]
  simp only [hcont]
  rw [applyExtensions_append, applyExtensions_append,
    applyExtensions_eq_self opts _ pre hpre, applyExtensions_eq_self opts _ post hpost]
  simp only [applyExtensions, if_pos, nodeChildren, hP, hblk]
  simp [descriptorToHTML]

/-- Witness for C1 on a concrete base (`<extension-point name="hdr">old</…>`
between a text node and a footer) and a concrete derived component filling
`hdr` with `new`. -/
theorem resolveComponent_single_level_merge_witness :
    resolveComponent
        (fun p => if p = "/app/Base.vue" then
          some ⟨some ⟨[("lang", .str "html")],
                 [Node.text "A",
                  Node.element "extension-point" [("name", "hdr")] [Node.text "old"],
                  Node.element "footer" [] []]⟩, none, [], []⟩
          else none)
        defaultOptions [] 1
        ⟨some ⟨[("extends", .str "Base.vue")],
               [Node.element "extensions" []
                 [Node.element "extension" [("point", "hdr")] [Node.text "new"]]]⟩,
         none, [], []⟩ "/app" =
      .ok ⟨⟨some ⟨[("extendable", .bTrue)],
               [Node.text "A",
                Node.element "template" [] [Node.text "new"],
                Node.element "footer" [] []]⟩,
            none, [], List.filter (fun cb => cb.type ≠ defaultOptions.EXTENSION_TAG) []⟩,
          [resolveExtendsPath [] "/app" "Base.vue"]⟩ :=
  resolveComponent_single_level_merge
    (fun p => if p = "/app/Base.vue" then
      some ⟨some ⟨[("lang", .str "html")],
             [Node.text "A",
              Node.element "extension-point" [("name", "hdr")] [Node.text "old"],
              Node.element "footer" [] []]⟩, none, [], []⟩
      else none)
    defaultOptions [] 0 "/app" "Base.vue" "hdr"
    [("extends", .str "Base.vue")] [("lang", .str "html")]
    [("name", "hdr")] [] [("point", "hdr")]
    [Node.element "extensions" []
      [Node.element "extension" [("point", "hdr")] [Node.text "new"]]]
    [Node.text "A"] [Node.element "footer" [] []]
    [Node.text "old"] [Node.text "new"]
    [Node.element "extension" [("point", "hdr")] [Node.text "new"]]
    none none [] [] [] []
    (by decide) rfl rfl rfl rfl
    (by simp [findDomElementsByTagName])
    (by simp [findDomElementsByTagName, defaultOptions])
    rfl rfl

/-! ### C2: unfilled point fallback -/

/-- An extension point whose name matches no extension block is kept: same tag,
same attributes, recursively processed children. -/
theorem applyExtensions_point_unmatched (opts : Options) (extensions : List Node)
    (pattrs : List (String × String)) (D : List Node)
    (h : extensions.find? (fun blk =>
        domAttr (nodeAttribs blk) opts.EXT_POINT_REF_ATTR
          == domAttr pattrs opts.EXT_POINT_NAME_ATTR) = none) :
    applyExtensions opts extensions [Node.element opts.EXT_POINT_TAG pattrs D] =
      [Node.element opts.EXT_POINT_TAG pattrs (applyExtensions opts extensions D)] := by
  simp only [applyExtensions, if_pos, h]

/-- An extension point matched by an extension block is replaced: retagged to
`template`, name attribute removed, children taken from the block. -/
theorem applyExtensions_point_matched (opts : Options) (extensions : List Node)
    (pattrs : List (String × String)) (D : List Node) (blk : Node)
    (h : extensions.find? (fun b =>
        domAttr (nodeAttribs b) opts.EXT_POINT_REF_ATTR
          == domAttr pattrs opts.EXT_POINT_NAME_ATTR) = some blk) :
    applyExtensions opts extensions [Node.element opts.EXT_POINT_TAG pattrs D] =
      [Node.element "template" (eraseAttr pattrs opts.EXT_POINT_NAME_ATTR)
        (nodeChildren blk)] := by
  simp only [applyExtensions, if_pos, h]

/-- The Finalizer retags a (remaining) extension point in place. -/
theorem finalizeExtensionPoints_point (opts : Options)
    (pattrs : List (String × String)) (D : List Node) :
    finalizeExtensionPoints opts [Node.element opts.EXT_POINT_TAG pattrs D] =
      [Node.element "template" (eraseAttr pattrs opts.EXT_POINT_NAME_ATTR)
        (finalizeExtensionPoints opts D)] := by
  simp [finalizeExtensionPoints]

/-- C2 (amended): base defining extension point `P` with default children `D`,
derived component extending it whose (first top-level) extensions container has
no extension block targeting `P`: the resolve-then-finalise pipeline leaves the
point open through the merge and the Finalizer then shows exactly `D` at the
point's location, retagged to a plain `template` container without the name
attribute.  (The derived component must have an extensions container at all —
without one the resolution rejects, see C10 and the C2 counterexample.) -/
theorem getMergedCode_unfilled_point_fallback
    (fs : String → Option Descriptor) (opts : Options) (aliases : List (String × String))
    (fuel : Nat) (currPath baseRelPath P : String)
    (dattrs battrs : List (String × AttrVal)) (pattrs cattrs : List (String × String))
    (ddom pre post D blocks : List Node)
    (dscript bscript : Option Block) (dstyles dcustoms bstyles bcustoms : List Block)
    (hne : baseRelPath ≠ "")
    (hda : attrValue dattrs opts.EXTENDS_ATTR = some (.str baseRelPath))
    (hread : fs (resolveExtendsPath aliases currPath baseRelPath) =
      some ⟨some ⟨battrs, pre ++ [Node.element opts.EXT_POINT_TAG pattrs D] ++ post⟩,
            bscript, bstyles, bcustoms⟩)
    (hroot : attrValue battrs opts.EXTENDS_ATTR = none)
    (hP : domAttr pattrs opts.EXT_POINT_NAME_ATTR = some P)
    (hpre : findDomElementsByTagName pre opts.EXT_POINT_TAG = [])
    (hpost : findDomElementsByTagName post opts.EXT_POINT_TAG = [])
    (hD : findDomElementsByTagName D opts.EXT_POINT_TAG = [])
    (hcont : ddom.find? (isElemNamed opts.EXTENSIONS_TAG) =
      some (Node.element opts.EXTENSIONS_TAG cattrs blocks))
    (hnoblk : (blocks.filter (isElemNamed opts.EXTENSION_TAG)).find?
        (fun blk => domAttr (nodeAttribs blk) opts.EXT_POINT_REF_ATTR == some P) = none) :
    getMergedCode fs opts aliases (fuel + 1)
        ⟨some ⟨dattrs, ddom⟩, dscript, dstyles, dcustoms⟩ currPath =
      .ok ⟨⟨some ⟨[],
               pre ++ [Node.element "template" (eraseAttr pattrs opts.EXT_POINT_NAME_ATTR) D]
                 ++ post⟩,
            stripScriptComments dscript, dstyles,
            dcustoms.filter (fun cb => cb.type ≠ opts.EXTENSION_TAG)⟩,
          [resolveExtendsPath aliases currPath baseRelPath]⟩ := by
  have hbase := resolveComponent_no_extends fs opts aliases fuel
    ⟨some ⟨battrs, pre ++ [Node.element opts.EXT_POINT_TAG pattrs D] ++ post⟩,
     bscript, bstyles, bcustoms⟩
    (pathDirname (resolveExtendsPath aliases currPath baseRelPath))
    ⟨battrs, pre ++ [Node.element opts.EXT_POINT_TAG pattrs D] ++ post⟩ rfl hroot
  have hres : resolveComponent fs opts aliases (fuel + 1)
      ⟨some ⟨dattrs, ddom⟩, dscript, dstyles, dcustoms⟩ currPath =
      .ok ⟨⟨some ⟨[(opts.EXTENDABLE_ATTR, .bTrue)],
               pre ++ [Node.element opts.EXT_POINT_TAG pattrs D] ++ post⟩,
            dscript, dstyles,
            dcustoms.filter (fun cb => cb.type ≠ opts.EXTENSION_TAG)⟩,
          [resolveExtendsPath aliases currPath baseRelPath]⟩ := by
    rw [resolveComponent.eq_1]
    simp only [hda, hne, if_false, hread, hbase]
    rw [mergeWithBase]
    simp only [hcont, nodeChildren]
    rw [applyExtensions_append, applyExtensions_append,
      applyExtensions_eq_self opts _ pre hpre, applyExtensions_eq_self opts _ post hpost,
      applyExtensions_point_unmatched opts _ pattrs D (by rw [hP]; exact hnoblk),
      applyExtensions_eq_self opts _ D hD]
    simp [descriptorToHTML]
  simp only [getMergedCode, hres]
  rw [finalizeExtensionPoints_append, finalizeExtensionPoints_append,
    finalizeExtensionPoints_eq_self opts pre hpre,
    finalizeExtensionPoints_eq_self opts post hpost,
    finalizeExtensionPoints_point opts pattrs D,
    finalizeExtensionPoints_eq_self opts D hD]
  simp [descriptorToHTML, attrValue, truthyAttr, List.filter_filter]

/-- Witness for C2's amended theorem: the derived component has an empty
extensions container, so the point `hdr` stays open and the finalised output
shows the default content `old` in a plain `template` container. -/
theorem getMergedCode_unfilled_point_fallback_witness :
    getMergedCode
        (fun p => if p = "/app/Base.vue" then
          some ⟨some ⟨[("lang", .str "html")],
                 [Node.text "A",
                  Node.element "extension-point" [("name", "hdr")] [Node.text "old"],
                  Node.element "footer" [] []]⟩, none, [], []⟩
          else none)
        defaultOptions [] 1
        ⟨some ⟨[("extends", .str "Base.vue")], [Node.element "extensions" [] []]⟩,
         none, [], []⟩ "/app" =
      .ok ⟨⟨some ⟨[],
               [Node.text "A",
                Node.element "template" [] [Node.text "old"],
                Node.element "footer" [] []]⟩,
            stripScriptComments none, [],
            List.filter (fun cb => cb.type ≠ defaultOptions.EXTENSION_TAG) []⟩,
          [resolveExtendsPath [] "/app" "Base.vue"]⟩ :=
  getMergedCode_unfilled_point_fallback
    (fun p => if p = "/app/Base.vue" then
      some ⟨some ⟨[("lang", .str "html")],
             [Node.text "A",
              Node.element "extension-point" [("name", "hdr")] [Node.text "old"],
              Node.element "footer" [] []]⟩, none, [], []⟩
      else none)
    defaultOptions [] 0 "/app" "Base.vue" "hdr"
    [("extends", .str "Base.vue")] [("lang", .str "html")]
    [("name", "hdr")] []
    [Node.element "extensions" [] []]
    [Node.text "A"] [Node.element "footer" [] []]
    [Node.text "old"] []
    none none [] [] [] []
    (by decide) rfl rfl rfl rfl
    (by simp [findDomElementsByTagName])
    (by simp [findDomElementsByTagName, defaultOptions])
    (by simp [findDomElementsByTagName])
    rfl rfl

/-- Counterexample to C2 as stated: a derived component that extends the base
and has no extension block matching `P` because it has no extensions container
at all does not produce any fallback output — the whole pipeline rejects with
the thrown container error. -/
theorem getMergedCode_unfilled_point_counterexample :
    getMergedCode
        (fun p => if p = "/app/Base.vue" then
          some ⟨some ⟨[], [Node.element "extension-point" [("name", "P")] [Node.text "D"]]⟩,
                none, [], []⟩
          else none)
        defaultOptions [] 1
        ⟨some ⟨[("extends", .str "Base.vue")], [Node.text "no container"]⟩, none, [], []⟩
        "/app" = .error (.typeError "undefined extensions container children") := by
  rfl

/-! ### C3: three-level chain -/

/-- The Finalizer leaves a non-extension-point element in place, recursing into
its children. -/
theorem finalizeExtensionPoints_other (opts : Options) (n : String)
    (attrs : List (String × String)) (c : List Node) (h : ¬ n = opts.EXT_POINT_TAG) :
    finalizeExtensionPoints opts [Node.element n attrs c] =
      [Node.element n attrs (finalizeExtensionPoints opts c)] := by
  simp [finalizeExtensionPoints, h]

/-- C3 (amended): three-level chain root → mid → leaf, root defining extension
point `P` (default children `D`), mid extending root with a top-level
extensions container holding no block targeting `P`, leaf extending mid with a
top-level extensions container whose (unique) block targeting `P` carries
children `C`: the finalised output of resolving the leaf contains exactly `C`
at `P`'s location (retagged to a plain `template` container), and the ancestor
list is exactly `[rootAbsPath, midAbsPath]` — farthest ancestor first, because
each recursion level appends the base path after its recursive call returns.
(Each extending level must have a top-level extensions container; without one
the chain rejects, see C10 and the C3 counterexample.) -/
theorem getMergedCode_three_level_chain
    (fs : String → Option Descriptor) (opts : Options) (aliases : List (String × String))
    (fuel : Nat) (currPath midRef rootRef P : String)
    (lattrs mattrs rattrs : List (String × AttrVal))
    (pattrs lcattrs mcattrs eattrs : List (String × String))
    (ldom mdom pre post D C lblocks mblocks : List Node)
    (lscript mscript rscript : Option Block)
    (lstyles lcustoms mstyles mcustoms rstyles rcustoms : List Block)
    (hlne : midRef ≠ "")
    (hla : attrValue lattrs opts.EXTENDS_ATTR = some (.str midRef))
    (hlcont : ldom.find? (isElemNamed opts.EXTENSIONS_TAG) =
      some (Node.element opts.EXTENSIONS_TAG lcattrs lblocks))
    (hlblk : (lblocks.filter (isElemNamed opts.EXTENSION_TAG)).find?
        (fun blk => domAttr (nodeAttribs blk) opts.EXT_POINT_REF_ATTR == some P) =
      some (Node.element opts.EXTENSION_TAG eattrs C))
    (hmne : rootRef ≠ "")
    (hreadMid : fs (resolveExtendsPath aliases currPath midRef) =
      some ⟨some ⟨mattrs, mdom⟩, mscript, mstyles, mcustoms⟩)
    (hma : attrValue mattrs opts.EXTENDS_ATTR = some (.str rootRef))
    (hmcont : mdom.find? (isElemNamed opts.EXTENSIONS_TAG) =
      some (Node.element opts.EXTENSIONS_TAG mcattrs mblocks))
    (hmnoblk : (mblocks.filter (isElemNamed opts.EXTENSION_TAG)).find?
        (fun blk => domAttr (nodeAttribs blk) opts.EXT_POINT_REF_ATTR == some P) = none)
    (hreadRoot : fs (resolveExtendsPath aliases
        (pathDirname (resolveExtendsPath aliases currPath midRef)) rootRef) =
      some ⟨some ⟨rattrs, pre ++ [Node.element opts.EXT_POINT_TAG pattrs D] ++ post⟩,
            rscript, rstyles, rcustoms⟩)
    (hroot : attrValue rattrs opts.EXTENDS_ATTR = none)
    (hP : domAttr pattrs opts.EXT_POINT_NAME_ATTR = some P)
    (hpre : findDomElementsByTagName pre opts.EXT_POINT_TAG = [])
    (hpost : findDomElementsByTagName post opts.EXT_POINT_TAG = [])
    (hD : findDomElementsByTagName D opts.EXT_POINT_TAG = [])
    (hC : findDomElementsByTagName C opts.EXT_POINT_TAG = [])
    (hnt : opts.EXT_POINT_TAG ≠ "template") :
    getMergedCode fs opts aliases (fuel + 2)
        ⟨some ⟨lattrs, ldom⟩, lscript, lstyles, lcustoms⟩ currPath =
      .ok ⟨⟨some ⟨[],
               pre ++ [Node.element "template" (eraseAttr pattrs opts.EXT_POINT_NAME_ATTR) C]
                 ++ post⟩,
            stripScriptComments lscript, lstyles,
            lcustoms.filter (fun cb => cb.type ≠ opts.EXTENSION_TAG)⟩,
          [resolveExtendsPath aliases
             (pathDirname (resolveExtendsPath aliases currPath midRef)) rootRef,
           resolveExtendsPath aliases currPath midRef]⟩ := by
  have hrootbase := resolveComponent_no_extends fs opts aliases fuel
    ⟨some ⟨rattrs, pre ++ [Node.element opts.EXT_POINT_TAG pattrs D] ++ post⟩,
     rscript, rstyles, rcustoms⟩
    (pathDirname (resolveExtendsPath aliases
      (pathDirname (resolveExtendsPath aliases currPath midRef)) rootRef))
    ⟨rattrs, pre ++ [Node.element opts.EXT_POINT_TAG pattrs D] ++ post⟩ rfl hroot
  have hmid : resolveComponent fs opts aliases (fuel + 1)
      ⟨some ⟨mattrs, mdom⟩, mscript, mstyles, mcustoms⟩
      (pathDirname (resolveExtendsPath aliases currPath midRef)) =
      .ok ⟨⟨some ⟨[(opts.EXTENDABLE_ATTR, .bTrue)],
               pre ++ [Node.element opts.EXT_POINT_TAG pattrs D] ++ post⟩,
            mscript, mstyles,
            mcustoms.filter (fun cb => cb.type ≠ opts.EXTENSION_TAG)⟩,
          [resolveExtendsPath aliases
             (pathDirname (resolveExtendsPath aliases currPath midRef)) rootRef]⟩ := by
    rw [resolveComponent.eq_1]
    simp only [hma, hmne, if_false, hreadRoot, hrootbase]
    rw [mergeWithBase]
    simp only [hmcont, nodeChildren]
    rw [applyExtensions_append, applyExtensions_append,
      applyExtensions_eq_self opts _ pre hpre, applyExtensions_eq_self opts _ post hpost,
      applyExtensions_point_unmatched opts _ pattrs D (by rw [hP]; exact hmnoblk),
      applyExtensions_eq_self opts _ D hD]
    simp [descriptorToHTML]
  have hleaf : resolveComponent fs opts aliases (fuel + 2)
      ⟨some ⟨lattrs, ldom⟩, lscript, lstyles, lcustoms⟩ currPath =
      .ok ⟨⟨some ⟨[(opts.EXTENDABLE_ATTR, .bTrue)],
               pre ++ [Node.element "template" (eraseAttr pattrs opts.EXT_POINT_NAME_ATTR) C]
                 ++ post⟩,
            lscript, lstyles,
            lcustoms.filter (fun cb => cb.type ≠ opts.EXTENSION_TAG)⟩,
          [resolveExtendsPath aliases
             (pathDirname (resolveExtendsPath aliases currPath midRef)) rootRef,
           resolveExtendsPath aliases currPath midRef]⟩ := by
    rw [resolveComponent.eq_1]
    simp only [hla, hlne, if_false, hreadMid, hmid]
    rw [mergeWithBase]
    simp only [hlcont, nodeChildren]
    rw [applyExtensions_append, applyExtensions_append,
      applyExtensions_eq_self opts _ pre hpre, applyExtensions_eq_self opts _ post hpost,
      applyExtensions_point_matched opts _ pattrs D _ (by rw [hP]; exact hlblk)]
    simp [descriptorToHTML, nodeChildren]
  simp only [getMergedCode, hleaf]
  rw [finalizeExtensionPoints_append, finalizeExtensionPoints_append,
    finalizeExtensionPoints_eq_self opts pre hpre,
    finalizeExtensionPoints_eq_self opts post hpost,
    finalizeExtensionPoints_other opts "template" _ C (Ne.symm hnt),
    finalizeExtensionPoints_eq_self opts C hC]
  simp [descriptorToHTML, attrValue, truthyAttr, List.filter_filter]

/-- Witness for C3's amended theorem on a concrete chain
`/pages/Leaf → /pages/Mid.vue → /pages/Root.vue`. -/
theorem getMergedCode_three_level_chain_witness :
    getMergedCode
        (fun p => if p = "/pages/Mid.vue" then
            some ⟨some ⟨[("extends", .str "Root.vue")], [Node.element "extensions" [] []]⟩,
                  none, [], []⟩
          else if p = "/pages/Root.vue" then
            some ⟨some ⟨[],
                   [Node.text "A",
                    Node.element "extension-point" [("name", "hdr")] [Node.text "old"],
                    Node.element "footer" [] []]⟩, none, [], []⟩
          else none)
        defaultOptions [] 2
        ⟨some ⟨[("extends", .str "Mid.vue")],
               [Node.element "extensions" []
                 [Node.element "extension" [("point", "hdr")] [Node.text "new"]]]⟩,
         none, [], []⟩ "/pages" =
      .ok ⟨⟨some ⟨[],
               [Node.text "A",
                Node.element "template" [] [Node.text "new"],
                Node.element "footer" [] []]⟩,
            stripScriptComments none, [],
            List.filter (fun cb => cb.type ≠ defaultOptions.EXTENSION_TAG) []⟩,
          [resolveExtendsPath []
             (pathDirname (resolveExtendsPath [] "/pages" "Mid.vue")) "Root.vue",
           resolveExtendsPath [] "/pages" "Mid.vue"]⟩ :=
  getMergedCode_three_level_chain
    (fun p => if p = "/pages/Mid.vue" then
        some ⟨some ⟨[("extends", .str "Root.vue")], [Node.element "extensions" [] []]⟩,
              none, [], []⟩
      else if p = "/pages/Root.vue" then
        some ⟨some ⟨[],
               [Node.text "A",
                Node.element "extension-point" [("name", "hdr")] [Node.text "old"],
                Node.element "footer" [] []]⟩, none, [], []⟩
      else none)
    defaultOptions [] 0 "/pages" "Mid.vue" "Root.vue" "hdr"
    [("extends", .str "Mid.vue")] [("extends", .str "Root.vue")] []
    [("name", "hdr")] [] [] [("point", "hdr")]
    [Node.element "extensions" []
      [Node.element "extension" [("point", "hdr")] [Node.text "new"]]]
    [Node.element "extensions" [] []]
    [Node.text "A"] [Node.element "footer" [] []]
    [Node.text "old"] [Node.text "new"]
    [Node.element "extension" [("point", "hdr")] [Node.text "new"]] []
    none none none [] [] [] [] [] []
    (by decide) rfl rfl rfl (by decide) rfl rfl rfl rfl rfl rfl rfl
    (by simp [findDomElementsByTagName])
    (by simp [findDomElementsByTagName, defaultOptions])
    (by simp [findDomElementsByTagName])
    (by simp [findDomElementsByTagName])
    (by decide)

/-- Counterexample to C3 as stated: if the middle component extends the root
but leaves `P` open by simply having no extensions container, the whole
three-level resolution rejects — no finalised output containing the leaf's
content, and no ancestor list, is produced. -/
theorem getMergedCode_three_level_counterexample :
    getMergedCode
        (fun p => if p = "/pages/Mid.vue" then
            some ⟨some ⟨[("extends", .str "Root.vue")], [Node.text "m"]⟩, none, [], []⟩
          else if p = "/pages/Root.vue" then
            some ⟨some ⟨[],
                   [Node.element "extension-point" [("name", "hdr")] [Node.text "old"]]⟩,
                  none, [], []⟩
          else none)
        defaultOptions [] 2
        ⟨some ⟨[("extends", .str "Mid.vue")],
               [Node.element "extensions" []
                 [Node.element "extension" [("point", "hdr")] [Node.text "new"]]]⟩,
         none, [], []⟩ "/pages" =
      .error (.typeError "undefined extensions container children") := by
  rfl
